import Mathlib

/-!
Verification of `generate_file.py` (LangtraceFileGenerator).

A shallow embedding of the `LangtraceFileGenerator` class from
`src/generate_file.py`.  The filesystem is modelled explicitly as a record of
existing directories and files (an association list from path to content),
together with two failure oracles listing the paths at which a write raises
`IOError` and at which a deletion raises `OSError`.  Python exceptions are
modelled with `Except`; since a raised exception leaves the already-performed
mutations of the generator object and the filesystem in place, errors carry
the state at the moment of the raise.

Definitions follow the Python source line by line; `Nat.repr` models Python
`str` on non-negative integers, `pyEndsWith` models `str.endswith`, `zfill`
models `str.zfill` on unsigned digit strings.
-/

/-- The module-level constant `LANGTRACE_SAMPLER_TEMPLATE` of
`generate_file.py` (the fixed payload written into every generated file). -/
def LANGTRACE_SAMPLER_TEMPLATE : String :=
  "from typing import Optional, Sequence\nfrom opentelemetry.sdk.trace.sampling import (\n    Sampler,\n    Decision,\n    SamplingResult,\n)\nfrom opentelemetry.trace import SpanKind, Link, TraceState, TraceFlags\nfrom opentelemetry.util.types import Attributes\nfrom opentelemetry.context import Context\nfrom opentelemetry import trace\n\n\nclass LangtraceSampler(Sampler):\n    \"\"\"Custom sampler for Langtrace that filters spans based on disabled methods.\"\"\"\n    \n    _disabled_methods_names: set\n    \n    def __init__(\n        self,\n        disabled_methods: dict,\n    ):\n        \"\"\"Initialize the sampler with disabled methods configuration.\n        \n        Args:\n            disabled_methods: Dictionary mapping components to their disabled methods\n        \"\"\"\n        self._disabled_methods_names = set()\n        if disabled_methods:\n            for _, methods in disabled_methods.items():\n                for method in methods:\n                    self._disabled_methods_names.add(method)\n    \n    def should_sample(\n        self,\n        parent_context: Optional[Context],\n        trace_id: int,\n        name: str,\n        kind: Optional[SpanKind] = None,\n        attributes: Attributes = None,\n        links: Optional[Sequence[Link]] = None,\n        trace_state: Optional[\"TraceState\"] = None,\n    ) -> SamplingResult:\n        \"\"\"Determine whether a span should be sampled.\n        \n        Args:\n            parent_context: The parent context\n            trace_id: The trace ID\n            name: The span name\n            kind: The span kind\n            attributes: The span attributes\n            links: The span links\n            trace_state: The trace state\n            \n        Returns:\n            SamplingResult indicating whether to sample the span\n        \"\"\"\n        parent_span = trace.get_current_span(parent_context)\n        parent_span_context = parent_span.get_span_context()\n        \n        if not self._disabled_methods_names:\n            return SamplingResult(decision=Decision.RECORD_AND_SAMPLE)\n        \n        if parent_context:\n            if (\n                parent_span_context.span_id != 0\n                and parent_span_context.trace_flags != TraceFlags.SAMPLED\n            ):\n                return SamplingResult(decision=Decision.DROP)\n        \n        if name in self._disabled_methods_names:\n            return SamplingResult(decision=Decision.DROP)\n        \n        return SamplingResult(decision=Decision.RECORD_AND_SAMPLE)\n    \n    def get_description(self) -> str:\n        \"\"\"Get a description of this sampler.\n        \n        Returns:\n            A string description of the sampler\n        \"\"\"\n        return \"Langtrace Sampler\"\n"

/-- The local constant `init_content` of `generate_file.py`
(`generate_file`, lines 166-176): the block prepended to the template when
the reserved init file is generated with `add_init=True`. -/
def init_content : String :=
  "\"\"\"\nLangtrace Sampler Module\n\nThis module provides the LangtraceSampler class for OpenTelemetry tracing.\n\"\"\"\n\nfrom .langtrace_sampler import LangtraceSampler\n\n__all__ = [\u0027LangtraceSampler\u0027]\n__version__ = \u00271.0.0\u0027\n"

/-- Models Python `str.endswith(suf)`: the characters of `suf` are a suffix
of the characters of `s` (`generate_file.py` line 156). -/
def pyEndsWith (s suf : String) : Bool :=
  suf.data.isSuffixOf s.data

/-- Models Python `str.zfill(width)` for strings without a leading sign
(the only use in the source applies it to `str(i)` with `i ≥ 1`):
left-pad with the character `0` up to `width`. -/
def zfill (s : String) (width : Nat) : String :=
  if s.length < width then (List.replicate (width - s.length) '0').asString ++ s else s

/-- Models Python `str(n)` on integers (`str(i)` / `len(str(count))` in
`_generate_files_by_count`). -/
def pyStr (n : Int) : String :=
  if n < 0 then "-" ++ Nat.repr n.natAbs else Nat.repr n.toNat

/-- The filesystem state.  `dirs` are the existing directories, `files` maps
each existing file path to its content (later entries shadow nothing: a path
occurs at most once because writes remove the old entry).  `failWrite` lists
the paths at which opening for writing raises `IOError`; `failUnlink` lists
the paths at which `Path.unlink` raises `OSError`.  The oracles let the
theorems quantify over filesystem failures. -/
structure FS where
  dirs : List String
  files : List (String × String)
  failWrite : List String
  failUnlink : List String
deriving Repr, DecidableEq

/-- Models `Path.exists()` for a file path. -/
def FS.fileExists (fs : FS) (p : String) : Bool :=
  fs.files.any (fun kv => kv.1 == p)

/-- Models `open(p, "w").write(c)`: overwrite any existing entry at `p`. -/
def FS.writeFile (fs : FS) (p c : String) : FS :=
  { fs with files := (fs.files.filter (fun kv => kv.1 != p)) ++ [(p, c)] }

/-- The content stored at path `p`, if a file exists there. -/
def FS.readFile? (fs : FS) (p : String) : Option String :=
  (fs.files.find? (fun kv => kv.1 == p)).map (fun kv => kv.2)

/-- Models `Path.unlink()` (assuming the path is not in `failUnlink`). -/
def FS.unlink (fs : FS) (p : String) : FS :=
  { fs with files := fs.files.filter (fun kv => kv.1 != p) }

/-- Models `Path.exists()` for a directory path. -/
def FS.dirExists (fs : FS) (d : String) : Bool :=
  fs.dirs.contains d

/-- Models `Path.mkdir(exist_ok=True)` for a single directory. -/
def FS.addDir (fs : FS) (d : String) : FS :=
  if fs.dirs.contains d then fs else { fs with dirs := fs.dirs ++ [d] }

/-- Models `Path.rmdir()` (only ever invoked by the source after checking
emptiness, so no failure oracle is needed). -/
def FS.rmdir (fs : FS) (d : String) : FS :=
  { fs with dirs := fs.dirs.filter (fun e => e != d) }

/-- Whether `p` lies strictly below directory `d` in the path hierarchy. -/
def pathUnder (d p : String) : Bool :=
  (d ++ "/").data.isPrefixOf p.data

/-- Models `any(d.iterdir())`: the directory has at least one entry (a file
or a directory lying below it). -/
def FS.dirHasEntries (fs : FS) (d : String) : Bool :=
  fs.files.any (fun kv => pathUnder d kv.1) || fs.dirs.any (fun e => pathUnder d e)

/-- The mutable fields of a `LangtraceFileGenerator` instance.  The
constructor arguments `base_output_dir` and `use_timestamp` are stored as
given; `timestamp` is the `datetime.now().strftime("%Y%m%d_%H%M%S")` string
sampled in `__init__` (kept abstract: any string).  `created_files` is the
`self.created_files` list of paths. -/
structure LangtraceFileGenerator where
  base_output_dir : String
  use_timestamp : Bool
  timestamp : String
  created_files : List String
deriving Repr, DecidableEq

/-- The field `self.output_dir` as computed by `__init__` (lines 124-129):
`base / ("langtrace_" + timestamp)` when `use_timestamp`, else the base
directory itself.  `Path`-joining is modelled as `"/"`-concatenation. -/
def LangtraceFileGenerator.output_dir (g : LangtraceFileGenerator) : String :=
  if g.use_timestamp then g.base_output_dir ++ "/" ++ ("langtrace_" ++ g.timestamp)
  else g.base_output_dir

/-- A fresh generator, as built by `LangtraceFileGenerator.__init__`. -/
def LangtraceFileGenerator.init (base_output_dir : String) (use_timestamp : Bool)
    (timestamp : String) : LangtraceFileGenerator :=
  { base_output_dir := base_output_dir, use_timestamp := use_timestamp,
    timestamp := timestamp, created_files := [] }

/-- The full program state: the generator object plus the filesystem. -/
structure St where
  gen : LangtraceFileGenerator
  fs : FS
deriving Repr, DecidableEq

/-- Python exceptions raised by the source: `ValueError` (the spec's
`ConfigurationError`) and `IOError` (the spec's `WriteError`). -/
inductive PyError where
  | valueError : String → PyError
  | ioError : String → PyError
deriving Repr, DecidableEq

/-- The filename normalization prefix of `generate_file` (lines 156-157):
append `.py` when absent. -/
def pyNormalize (filename : String) : String :=
  if pyEndsWith filename ".py" then filename else filename ++ ".py"

/-- The path `self.output_dir / filename` at which `generate_file` writes
the (already normalized) name `n`. -/
def LangtraceFileGenerator.pathOf (g : LangtraceFileGenerator) (n : String) : String :=
  g.output_dir ++ "/" ++ pyNormalize n

/-- Models `create_output_directory` (lines 131-144):
`self.output_dir.mkdir(parents=True, exist_ok=True)` creates the missing
base directory and the output directory (ancestors of `base_output_dir`
itself are not tracked by the model). -/
def create_output_directory (st : St) : St :=
  { st with fs := (st.fs.addDir st.gen.base_output_dir).addDir st.gen.output_dir }

/-- Models `generate_file(filename, add_init)` (lines 146-188): normalize
the filename, resolve the path, select the payload (`init_content` is
prepended exactly when `add_init` and the normalized name is
`__init__.py`), write, and append the path to `created_files`.  An
`IOError` during the write is logged and re-raised: the error carries the
unchanged state and the path is not recorded. -/
def generate_file (filename : String) (add_init : Bool) (st : St) :
    Except (PyError × St) (String × St) :=
  let filename := pyNormalize filename
  let file_path := st.gen.output_dir ++ "/" ++ filename
  let content := LANGTRACE_SAMPLER_TEMPLATE
  let content := if add_init && (filename == "__init__.py") then init_content ++ content
    else content
  if st.fs.failWrite.contains file_path then
    .error (.ioError file_path, st)
  else
    .ok (file_path,
      { gen := { st.gen with created_files := st.gen.created_files ++ [file_path] },
        fs := st.fs.writeFile file_path content })

/-- The auto-generated (pre-normalization) filenames of
`_generate_files_by_count` (lines 243-249): for `i` in `1..count`, the bare
`base_filename` when `count == 1`, else `base_filename + "_" + str(i)`
zero-padded to `len(str(count))`. -/
def autoNames (count : Int) (base_filename : String) : List String :=
  (List.range count.toNat).map (fun (j : Nat) =>
    if count == 1 then base_filename
    else base_filename ++ "_" ++ zfill (pyStr ((j : Int) + 1)) (pyStr count).length)

/-- The `for` loop shared by `_generate_files_by_count` (line 243-251) and
`_generate_files_by_names` (lines 261-262): call `generate_file` on each
name in order, propagating the first raised error. -/
def writeList (names : List String) (st : St) : Except (PyError × St) St :=
  match names with
  | [] => .ok st
  | n :: rest =>
    match generate_file n false st with
    | .error e => .error e
    | .ok (_, st1) => writeList rest st1

/-- Models `_generate_files_by_count` (lines 231-251): reject `count <= 0`
with `ValueError`, then generate the auto-named files. -/
def generate_files_by_count (count : Int) (base_filename : String) (st : St) :
    Except (PyError × St) St :=
  if count ≤ 0 then .error (.valueError "Count must be a positive integer", st)
  else writeList (autoNames count base_filename) st

/-- Models `_generate_files_by_names` (lines 253-262). -/
def generate_files_by_names (filenames : List String) (st : St) :
    Except (PyError × St) St :=
  writeList filenames st

/-- Models `generate_multiple_files` (lines 190-229): validate that exactly
one of `filenames`/`count` is given, create the output directory, write the
`__init__.py` file when `create_init`, generate the remaining files, and
return `self.created_files`. -/
def generate_multiple_files (filenames : Option (List String)) (count : Option Int)
    (create_init : Bool) (base_filename : String) (st : St) :
    Except (PyError × St) (List String × St) :=
  if filenames.isNone && count.isNone then
    .error (.valueError "Either filenames or count must be provided", st)
  else if filenames.isSome && count.isSome then
    .error (.valueError "Cannot specify both filenames and count. Choose one.", st)
  else
    let st := create_output_directory st
    let stepInit : Except (PyError × St) St :=
      if create_init then
        match generate_file "__init__.py" true st with
        | .error e => .error e
        | .ok (_, st1) => .ok st1
      else .ok st
    match stepInit with
    | .error e => .error e
    | .ok st1 =>
      match (match count with
        | some c => generate_files_by_count c base_filename st1
        | none => generate_files_by_names (filenames.getD []) st1) with
      | .error e => .error e
      | .ok st2 => .ok (st2.gen.created_files, st2)

/-- The file-deletion loop of `cleanup` (lines 266-272): for each recorded
path, delete it if it still exists; a missing path is skipped, a path whose
deletion raises `OSError` is logged and skipped, and neither aborts the
loop. -/
def cleanupFilesPhase (paths : List String) (fs : FS) : FS :=
  paths.foldl (fun acc p =>
    if acc.fileExists p then
      if acc.failUnlink.contains p then acc else acc.unlink p
    else acc) fs

/-- The directory-removal block of `cleanup` (lines 274-287): remove the
output directory iff it exists and is empty; only inside that branch, and
only in timestamp mode, additionally remove the base directory iff it is
(by then) empty. -/
def cleanupDirsPhase (g : LangtraceFileGenerator) (fs : FS) : FS :=
  if fs.dirExists g.output_dir && !(fs.dirHasEntries g.output_dir) then
    let fs1 := fs.rmdir g.output_dir
    if g.use_timestamp && fs1.dirExists g.base_output_dir
        && !(fs1.dirHasEntries g.base_output_dir) then
      fs1.rmdir g.base_output_dir
    else fs1
  else fs

/-- The output-directory-only part of the removal block, used to state that
in non-timestamp mode no separate base-directory removal ever happens. -/
def removeOutputDirOnly (g : LangtraceFileGenerator) (fs : FS) : FS :=
  if fs.dirExists g.output_dir && !(fs.dirHasEntries g.output_dir) then
    fs.rmdir g.output_dir
  else fs

/-- Models `cleanup` (lines 264-289): best-effort file deletion, conditional
bottom-up directory removal, then `self.created_files.clear()`. -/
def cleanup (st : St) : St :=
  let fs := cleanupFilesPhase st.gen.created_files st.fs
  let fs := cleanupDirsPhase st.gen fs
  { gen := { st.gen with created_files := [] }, fs := fs }

/-! ## Decimal representation: a structural account of `Nat.repr`

`Nat.repr` is fuel-based (`Nat.toDigitsCore`); `decChars` is the same
digit-string computation by well-founded recursion, which the proofs below
use to show that `Nat.repr` is injective, never starts with a leading zero
(for positive input), and always ends in a digit character. -/

/-- The decimal digit characters of `n`, most significant first. -/
def decChars (n : Nat) : List Char :=
  if _h : n < 10 then [Nat.digitChar n]
  else decChars (n / 10) ++ [Nat.digitChar (n % 10)]
decreasing_by exact Nat.div_lt_self (by omega) (by omega)

theorem toDigitsCore_eq_decChars :
    ∀ (f n : Nat) (ds : List Char), n < f →
      Nat.toDigitsCore 10 f n ds = decChars n ++ ds := by
  intro f
  induction f with
  | zero => intro n ds h; omega
  | succ f ih =>
    intro n ds h
    rw [decChars]
    by_cases h10 : n < 10
    · have hdiv : n / 10 = 0 := by omega
      have hmod : n % 10 = n := by omega
      simp [Nat.toDigitsCore, hdiv, h10, hmod]
    · have hdiv : ¬ n / 10 = 0 := by omega
      simp only [Nat.toDigitsCore, hdiv, if_false, h10, dif_neg, not_false_iff]
      rw [ih (n / 10) _ (by omega)]
      simp

theorem repr_eq_decChars (n : Nat) : Nat.repr n = (decChars n).asString := by
  show (Nat.toDigits 10 n).asString = _
  rw [Nat.toDigits, toDigitsCore_eq_decChars (n + 1) n [] (by omega), List.append_nil]

@[simp] theorem data_asString (l : List Char) : (l.asString).data = l := rfl

theorem data_repr_eq_decChars (n : Nat) : (Nat.repr n).data = decChars n := by
  rw [repr_eq_decChars, data_asString]

theorem digitChar_toNat : ∀ d, d < 10 → (Nat.digitChar d).toNat = 48 + d := by decide

theorem digitChar_ne_zero : ∀ d, d < 10 → 1 ≤ d → Nat.digitChar d ≠ '0' := by decide

theorem digitChar_ne_y : ∀ d, d < 10 → Nat.digitChar d ≠ 'y' := by decide

/-- Numeric value of a most-significant-first digit-character list. -/
def digitsVal (l : List Char) : Nat :=
  l.foldl (fun a c => 10 * a + (c.toNat - 48)) 0

theorem digitsVal_decChars : ∀ n : Nat, digitsVal (decChars n) = n := by
  intro n
  induction n using Nat.strong_induction_on with
  | _ n ih =>
    rw [decChars]
    by_cases h : n < 10
    · simp only [h, dif_pos, digitsVal, List.foldl_cons, List.foldl_nil]
      rw [digitChar_toNat n h]
      omega
    · have ihm := ih (n / 10) (Nat.div_lt_self (by omega) (by omega))
      simp only [h, dif_neg, not_false_iff, digitsVal, List.foldl_append,
        List.foldl_cons, List.foldl_nil]
      simp only [digitsVal] at ihm
      rw [ihm, digitChar_toNat (n % 10) (by omega)]
      omega

theorem decChars_injective : Function.Injective decChars := by
  intro m n h
  have hm := digitsVal_decChars m
  rw [h, digitsVal_decChars] at hm
  omega

theorem nat_repr_injective : Function.Injective Nat.repr := by
  intro m n h
  apply decChars_injective
  have h2 : (Nat.repr m).data = (Nat.repr n).data := by rw [h]
  rwa [data_repr_eq_decChars, data_repr_eq_decChars] at h2

theorem decChars_head_ne_zero :
    ∀ n : Nat, 1 ≤ n → ∃ c t, decChars n = c :: t ∧ c ≠ '0' := by
  intro n
  induction n using Nat.strong_induction_on with
  | _ n ih =>
    intro h
    rw [decChars]
    by_cases h10 : n < 10
    · exact ⟨Nat.digitChar n, [], by simp [h10], digitChar_ne_zero n h10 h⟩
    · obtain ⟨c, t, hct, hc⟩ :=
        ih (n / 10) (Nat.div_lt_self (by omega) (by omega)) (by omega)
      exact ⟨c, t ++ [Nat.digitChar (n % 10)], by simp [h10, hct], hc⟩

theorem decChars_getLast (n : Nat) :
    ∃ d, d < 10 ∧ (decChars n).getLast? = some (Nat.digitChar d) := by
  rw [decChars]
  by_cases h : n < 10
  · exact ⟨n, h, by simp [h]⟩
  · exact ⟨n % 10, by omega, by simp [h, List.getLast?_concat]⟩

/-! ## String plumbing: `zfill`, `pyEndsWith`, `pyNormalize` -/

theorem zfill_data (s : String) (w : Nat) :
    (zfill s w).data = List.replicate (w - s.length) '0' ++ s.data := by
  unfold zfill
  by_cases h : s.length < w
  · simp [h, String.data_append]
  · have hw : w - s.length = 0 := by omega
    simp [h, hw]

theorem replicate_zero_append_inj :
    ∀ (a b : Nat) (u v : List Char), u.head? ≠ some '0' → v.head? ≠ some '0' →
      List.replicate a '0' ++ u = List.replicate b '0' ++ v → a = b ∧ u = v := by
  intro a
  induction a with
  | zero =>
    intro b u v hu hv h
    cases b with
    | zero => simpa using h
    | succ b =>
      exfalso
      rw [List.replicate_succ, List.replicate_zero, List.nil_append, List.cons_append] at h
      exact hu (by rw [h]; rfl)
  | succ a ih =>
    intro b u v hu hv h
    cases b with
    | zero =>
      exfalso
      rw [List.replicate_succ, List.replicate_zero, List.nil_append, List.cons_append] at h
      exact hv (by rw [← h]; rfl)
    | succ b =>
      rw [List.replicate_succ, List.replicate_succ, List.cons_append, List.cons_append,
        List.cons.injEq] at h
      obtain ⟨hab, huv⟩ := ih b u v hu hv h.2
      exact ⟨by omega, huv⟩

theorem repr_head_ne_zero (i : Nat) (hi : 1 ≤ i) : (Nat.repr i).data.head? ≠ some '0' := by
  rw [data_repr_eq_decChars]
  obtain ⟨c, t, hct, hc⟩ := decChars_head_ne_zero i hi
  rw [hct]
  simpa using hc

theorem zfill_repr_inj (w : Nat) (i j : Nat) (hi : 1 ≤ i) (hj : 1 ≤ j)
    (h : zfill (Nat.repr i) w = zfill (Nat.repr j) w) : i = j := by
  have hdata := congrArg String.data h
  rw [zfill_data, zfill_data] at hdata
  obtain ⟨-, huv⟩ := replicate_zero_append_inj _ _ _ _
    (repr_head_ne_zero i hi) (repr_head_ne_zero j hj) hdata
  exact nat_repr_injective (String.ext huv)

theorem pyEndsWith_append_py (s : String) : pyEndsWith (s ++ ".py") ".py" = true := by
  rw [pyEndsWith, List.isSuffixOf_iff_suffix, String.data_append]
  exact List.suffix_append _ _

theorem pyEndsWith_getLast (t : String) (h : pyEndsWith t ".py" = true) :
    t.data.getLast? = some 'y' := by
  rw [pyEndsWith, List.isSuffixOf_iff_suffix] at h
  obtain ⟨pre, hpre⟩ := h
  have : t.data = (pre ++ ['.', 'p']) ++ ['y'] := by
    rw [← hpre]; simp
  rw [this, List.getLast?_concat]

theorem pyNormalize_of_ends (s : String) (h : pyEndsWith s ".py" = true) :
    pyNormalize s = s := by
  simp [pyNormalize, h]

theorem pyNormalize_of_not_ends (s : String) (h : pyEndsWith s ".py" = false) :
    pyNormalize s = s ++ ".py" := by
  simp [pyNormalize, h]

theorem pyNormalize_ends (s : String) : pyEndsWith (pyNormalize s) ".py" = true := by
  rw [pyNormalize]
  by_cases h : pyEndsWith s ".py" = true
  · simp [h]
  · simp only [eq_self_iff_true, Bool.not_eq_true] at h
    simp [h, pyEndsWith_append_py]

/-! ## Filesystem lemmas -/

theorem find?_filter_key (l : List (String × String)) (p q : String) (h : q ≠ p) :
    (l.filter (fun kv => kv.1 != p)).find? (fun kv => kv.1 == q) =
      l.find? (fun kv => kv.1 == q) := by
  induction l with
  | nil => rfl
  | cons kv rest ih =>
    by_cases hq : kv.1 = q
    · have hp : (kv.1 != p) = true := by simp [hq, h]
      have hqq : (kv.1 == q) = true := by simp [hq]
      simp [List.filter_cons, hp, List.find?_cons, hqq, h]
    · by_cases hp : kv.1 = p
      · have : (kv.1 != p) = false := by simp [hp]
        simp [List.filter_cons, this, List.find?_cons, hq, ih]
      · have : (kv.1 != p) = true := by simp [hp]
        simp [List.filter_cons, this, List.find?_cons, hq, ih]

theorem readFile?_writeFile_self (fs : FS) (p c : String) :
    (fs.writeFile p c).readFile? p = some c := by
  rw [FS.readFile?, FS.writeFile]
  have hnone : (fs.files.filter (fun kv => kv.1 != p)).find? (fun kv => kv.1 == p) = none := by
    rw [List.find?_eq_none]
    intro kv hkv
    rw [List.mem_filter] at hkv
    simpa using fun h => by simpa [h] using hkv.2
  simp [List.find?_append, hnone, List.find?_cons]

theorem readFile?_writeFile_ne (fs : FS) (p c q : String) (h : q ≠ p) :
    (fs.writeFile p c).readFile? q = fs.readFile? q := by
  rw [FS.readFile?, FS.readFile?, FS.writeFile]
  have hq : ((p, c).1 == q) = false := by simpa using fun hh => h hh.symm
  simp only [List.find?_append, find?_filter_key fs.files p q h, List.find?_cons, hq]
  cases fs.files.find? (fun kv => kv.1 == q) <;> rfl

theorem fileExists_iff_readFile? (fs : FS) (p : String) :
    fs.fileExists p = (fs.readFile? p).isSome := by
  rw [FS.fileExists, FS.readFile?]
  cases h : fs.files.find? (fun kv => kv.1 == p) with
  | none =>
    rw [List.find?_eq_none] at h
    simp only [Option.map_none', Option.isSome_none]
    rw [List.any_eq_false]
    intro kv hkv
    exact h kv hkv
  | some kv =>
    simp only [Option.map_some', Option.isSome_some]
    rw [List.any_eq_true]
    have hp : (fun kv : String × String => kv.1 == p) kv = true :=
      @List.find?_some _ (fun kv => kv.1 == p) kv _ h
    exact ⟨kv, List.mem_of_find?_eq_some h, hp⟩

theorem fileExists_writeFile_self (fs : FS) (p c : String) :
    (fs.writeFile p c).fileExists p = true := by
  rw [fileExists_iff_readFile?, readFile?_writeFile_self]; rfl

theorem fileExists_writeFile_of (fs : FS) (p c q : String) (h : fs.fileExists q = true) :
    (fs.writeFile p c).fileExists q = true := by
  by_cases hq : q = p
  · rw [hq]; exact fileExists_writeFile_self fs p c
  · rw [fileExists_iff_readFile?, readFile?_writeFile_ne fs p c q hq,
      ← fileExists_iff_readFile?]
    exact h

theorem readFile?_unlink_ne (fs : FS) (p q : String) (h : q ≠ p) :
    (fs.unlink p).readFile? q = fs.readFile? q := by
  rw [FS.readFile?, FS.readFile?, FS.unlink]
  rw [find?_filter_key fs.files p q h]

theorem fileExists_unlink_self (fs : FS) (p : String) :
    (fs.unlink p).fileExists p = false := by
  rw [FS.fileExists, FS.unlink]
  simp only [List.any_filter]
  rw [List.any_eq_false]
  intro kv _
  by_cases h : kv.1 = p <;> simp [h]

theorem fileExists_unlink_of_not (fs : FS) (p q : String) (h : fs.fileExists q = false) :
    (fs.unlink p).fileExists q = false := by
  rw [FS.fileExists, FS.unlink] at *
  simp only [List.any_filter]
  rw [List.any_eq_false] at h ⊢
  intro kv hkv
  have := h kv hkv
  simp only [Bool.and_eq_true, not_and]
  intro _
  exact this

theorem writeFile_dirs (fs : FS) (p c : String) : (fs.writeFile p c).dirs = fs.dirs := rfl

theorem writeFile_failWrite (fs : FS) (p c : String) :
    (fs.writeFile p c).failWrite = fs.failWrite := rfl

theorem writeFile_failUnlink (fs : FS) (p c : String) :
    (fs.writeFile p c).failUnlink = fs.failUnlink := rfl

theorem unlink_dirs (fs : FS) (p : String) : (fs.unlink p).dirs = fs.dirs := rfl

theorem unlink_failUnlink (fs : FS) (p : String) : (fs.unlink p).failUnlink = fs.failUnlink := rfl

theorem addDir_files (fs : FS) (d : String) : (fs.addDir d).files = fs.files := by
  rw [FS.addDir]; split <;> rfl

theorem addDir_failWrite (fs : FS) (d : String) : (fs.addDir d).failWrite = fs.failWrite := by
  rw [FS.addDir]; split <;> rfl

theorem addDir_failUnlink (fs : FS) (d : String) : (fs.addDir d).failUnlink = fs.failUnlink := by
  rw [FS.addDir]; split <;> rfl

theorem rmdir_files (fs : FS) (d : String) : (fs.rmdir d).files = fs.files := rfl

/-! ## Characterizing the generator operations -/

/-- Path-join with the output directory (for stating which paths a batch
call records). -/
def joinDir (d : String) (n : String) : String := d ++ "/" ++ n

/-- The normalized filenames a count-mode `generate_multiple_files` call
writes, in order: the reserved init name when requested, then the
auto-generated names. -/
def batchNames (count : Int) (create_init : Bool) (base_filename : String) : List String :=
  (if create_init then ["__init__.py"] else []) ++ (autoNames count base_filename).map pyNormalize

theorem generate_file_ok (fn : String) (ai : Bool) (st : St)
    (h : st.fs.failWrite.contains (st.gen.pathOf fn) = false) :
    generate_file fn ai st = .ok (st.gen.pathOf fn,
      { gen := { st.gen with created_files := st.gen.created_files ++ [st.gen.pathOf fn] },
        fs := st.fs.writeFile (st.gen.pathOf fn)
          (if ai && (pyNormalize fn == "__init__.py") then
             init_content ++ LANGTRACE_SAMPLER_TEMPLATE
           else LANGTRACE_SAMPLER_TEMPLATE) }) := by
  rw [generate_file]
  simp only [LangtraceFileGenerator.pathOf] at h
  simp only [h, Bool.false_eq_true, if_false]
  rfl

theorem generate_file_error (fn : String) (ai : Bool) (st : St) (e : PyError) (st' : St)
    (h : generate_file fn ai st = .error (e, st')) : st' = st := by
  rw [generate_file] at h
  by_cases hc : st.fs.failWrite.contains (st.gen.output_dir ++ "/" ++ pyNormalize fn) = true
  · simp only [hc, if_true] at h
    exact (Prod.mk.injEq _ _ _ _ ▸ (Except.error.injEq _ _ ▸ h)).2.symm
  · simp only [Bool.not_eq_true] at hc
    simp only [hc, Bool.false_eq_true, if_false] at h
    exact Except.noConfusion h

theorem writeList_ok (names : List String) :
    ∀ st : St, st.fs.failWrite = [] →
      ∃ fs' : FS,
        writeList names st = .ok
          ⟨{ st.gen with created_files :=
              st.gen.created_files ++ names.map st.gen.pathOf }, fs'⟩ ∧
        fs'.failWrite = [] ∧
        fs'.dirs = st.fs.dirs ∧
        fs'.failUnlink = st.fs.failUnlink ∧
        (∀ p, st.fs.fileExists p = true → fs'.fileExists p = true) ∧
        (∀ n ∈ names, fs'.fileExists (st.gen.pathOf n) = true) := by
  induction names with
  | nil =>
    intro st h
    refine ⟨st.fs, ?_, h, rfl, rfl, fun p hp => hp, by simp⟩
    simp only [writeList, List.map_nil, List.append_nil]
  | cons n rest ih =>
    intro st h
    have hc : st.fs.failWrite.contains (st.gen.pathOf n) = false := by
      rw [h]; rfl
    rw [writeList, generate_file_ok n false st hc]
    set c : String := if false && (pyNormalize n == "__init__.py") then
        init_content ++ LANGTRACE_SAMPLER_TEMPLATE
      else LANGTRACE_SAMPLER_TEMPLATE with hcdef
    set st1 : St :=
      ⟨{ st.gen with created_files := st.gen.created_files ++ [st.gen.pathOf n] },
        st.fs.writeFile (st.gen.pathOf n) c⟩ with hst1
    obtain ⟨fs', hrun, hfw, hdirs, hfu, hmono, hall⟩ := ih st1 (by
      show (st.fs.writeFile (st.gen.pathOf n) c).failWrite = []
      rw [writeFile_failWrite]; exact h)
    have hpathOf : st1.gen.pathOf = st.gen.pathOf := rfl
    refine ⟨fs', ?_, hfw, ?_, ?_, ?_, ?_⟩
    · change writeList rest st1 = _
      rw [hrun]
      show Except.ok (⟨{ st.gen with created_files :=
          (st.gen.created_files ++ [st.gen.pathOf n]) ++ rest.map st.gen.pathOf }, fs'⟩ : St) = _
      rw [List.append_assoc]
      rfl
    · rw [hdirs]
      show (st.fs.writeFile (st.gen.pathOf n) c).dirs = st.fs.dirs
      rw [writeFile_dirs]
    · rw [hfu]
      show (st.fs.writeFile (st.gen.pathOf n) c).failUnlink = st.fs.failUnlink
      rw [writeFile_failUnlink]
    · intro p hp
      exact hmono p (fileExists_writeFile_of st.fs (st.gen.pathOf n) c p hp)
    · intro m hm
      rcases List.mem_cons.mp hm with hm | hm
      · subst hm
        exact hmono (st.gen.pathOf m) (fileExists_writeFile_self st.fs (st.gen.pathOf m) c)
      · exact hall m hm

theorem pyNormalize_init : pyNormalize "__init__.py" = "__init__.py" := by decide

theorem dirExists_addDir_self (fs : FS) (d : String) : (fs.addDir d).dirExists d = true := by
  rw [FS.addDir, FS.dirExists]
  split
  · assumption
  · show (fs.dirs ++ [d]).contains d = true
    simp

theorem create_output_directory_gen (st : St) : (create_output_directory st).gen = st.gen := rfl

theorem create_output_directory_files (st : St) :
    (create_output_directory st).fs.files = st.fs.files := by
  rw [create_output_directory]
  show ((st.fs.addDir st.gen.base_output_dir).addDir st.gen.output_dir).files = _
  rw [addDir_files, addDir_files]

theorem create_output_directory_failWrite (st : St) :
    (create_output_directory st).fs.failWrite = st.fs.failWrite := by
  rw [create_output_directory]
  show ((st.fs.addDir st.gen.base_output_dir).addDir st.gen.output_dir).failWrite = _
  rw [addDir_failWrite, addDir_failWrite]

theorem create_output_directory_out_exists (st : St) :
    (create_output_directory st).fs.dirExists st.gen.output_dir = true := by
  rw [create_output_directory]
  exact dirExists_addDir_self _ _

theorem map_pathOf_eq (g : LangtraceFileGenerator) (l : List String) :
    l.map g.pathOf = (l.map pyNormalize).map (joinDir g.output_dir) := by
  rw [List.map_map]
  rfl

theorem gmf_count_ok (N : Int) (hN : 1 ≤ N) (ci : Bool) (bf : String) (st : St)
    (h : st.fs.failWrite = []) :
    ∃ fs' : FS,
      generate_multiple_files none (some N) ci bf st = .ok
        (st.gen.created_files ++ (batchNames N ci bf).map (joinDir st.gen.output_dir),
         ⟨{ st.gen with created_files :=
             st.gen.created_files ++ (batchNames N ci bf).map (joinDir st.gen.output_dir) },
           fs'⟩) ∧
      fs'.failWrite = [] ∧
      (∀ p ∈ (batchNames N ci bf).map (joinDir st.gen.output_dir),
        fs'.fileExists p = true) := by
  have hNle : ¬ N ≤ 0 := by omega
  cases ci with
  | false =>
    set st0 : St := create_output_directory st with hst0
    have hfw0 : st0.fs.failWrite = [] := by
      rw [hst0, create_output_directory_failWrite]; exact h
    obtain ⟨fs', hrun, hfw', hdirs', hfu', hmono', hall'⟩ :=
      writeList_ok (autoNames N bf) st0 hfw0
    have hred : generate_multiple_files none (some N) false bf st =
        (match generate_files_by_count N bf st0 with
         | .error e => .error e
         | .ok st2 => .ok (st2.gen.created_files, st2)) := rfl
    rw [hred, generate_files_by_count, if_neg hNle, hrun]
    refine ⟨fs', ?_, hfw', ?_⟩
    · show Except.ok (st0.gen.created_files ++ (autoNames N bf).map st0.gen.pathOf, _) = _
      rw [map_pathOf_eq]
      show Except.ok (st.gen.created_files ++
          ((autoNames N bf).map pyNormalize).map (joinDir st.gen.output_dir), _) = _
      rw [batchNames, if_neg (by simp : ¬ false = true)]
      rfl
    · intro p hp
      rw [batchNames] at hp
      simp only [if_neg (by simp : ¬ false = true), List.nil_append] at hp
      rw [← map_pathOf_eq] at hp
      rw [List.mem_map] at hp
      obtain ⟨n, hn, rfl⟩ := hp
      exact hall' n hn
  | true =>
    set st0 : St := create_output_directory st with hst0
    have hfw0 : st0.fs.failWrite = [] := by
      rw [hst0, create_output_directory_failWrite]; exact h
    have hc : st0.fs.failWrite.contains (st0.gen.pathOf "__init__.py") = false := by
      rw [hfw0]; rfl
    have hgf := generate_file_ok "__init__.py" true st0 hc
    set p0 : String := st0.gen.pathOf "__init__.py" with hp0
    set c0 : String := if true && (pyNormalize "__init__.py" == "__init__.py") then
        init_content ++ LANGTRACE_SAMPLER_TEMPLATE
      else LANGTRACE_SAMPLER_TEMPLATE with hc0
    set st1 : St :=
      ⟨{ st0.gen with created_files := st0.gen.created_files ++ [p0] },
        st0.fs.writeFile p0 c0⟩ with hst1
    have hfw1 : st1.fs.failWrite = [] := by
      show (st0.fs.writeFile p0 c0).failWrite = []
      rw [writeFile_failWrite]; exact hfw0
    obtain ⟨fs', hrun, hfw', hdirs', hfu', hmono', hall'⟩ :=
      writeList_ok (autoNames N bf) st1 hfw1
    have hred : generate_multiple_files none (some N) true bf st =
        (match (match generate_file "__init__.py" true st0 with
                | Except.error e => Except.error e
                | Except.ok (_, s) => Except.ok s) with
         | Except.error e => Except.error e
         | Except.ok st1 =>
           match generate_files_by_count N bf st1 with
           | Except.error e => Except.error e
           | Except.ok st2 => Except.ok (st2.gen.created_files, st2)) := rfl
    have hfin : generate_multiple_files none (some N) true bf st =
        Except.ok (st1.gen.created_files ++ (autoNames N bf).map st1.gen.pathOf,
          ⟨{ st1.gen with created_files :=
              st1.gen.created_files ++ (autoNames N bf).map st1.gen.pathOf }, fs'⟩) := by
      rw [hred, hgf]
      have hstep : (match (Except.ok (p0, st1) :
            Except (PyError × St) (String × St)) with
          | Except.error e => Except.error e
          | Except.ok (_, s) => (Except.ok s : Except (PyError × St) St)) = Except.ok st1 := rfl
      rw [hstep]
      show (match generate_files_by_count N bf st1 with
        | Except.error e => Except.error e
        | Except.ok st2 => (Except.ok (st2.gen.created_files, st2) :
            Except (PyError × St) (List String × St))) = _
      rw [generate_files_by_count, if_neg hNle, hrun]
    refine ⟨fs', ?_, hfw', ?_⟩
    · rw [hfin]
      show (Except.ok ((st.gen.created_files ++ [p0]) ++ (autoNames N bf).map st.gen.pathOf,
          (⟨{ st.gen with created_files :=
              (st.gen.created_files ++ [p0]) ++ (autoNames N bf).map st.gen.pathOf },
            fs'⟩ : St)) : Except (PyError × St) (List String × St)) = _
      have hp0' : p0 = joinDir st.gen.output_dir "__init__.py" := by
        rw [hp0]
        show st.gen.pathOf "__init__.py" = _
        rw [LangtraceFileGenerator.pathOf, pyNormalize_init]
        rfl
      rw [map_pathOf_eq, List.append_assoc, hp0', batchNames, if_pos rfl, List.map_append]
      rfl
    · intro p hp
      rw [batchNames, if_pos rfl] at hp
      rw [List.map_append] at hp
      rcases List.mem_append.mp hp with hp | hp
      · simp only [List.map_cons, List.map_nil, List.mem_singleton] at hp
        subst hp
        apply hmono'
        have hp0' : joinDir st.gen.output_dir "__init__.py" = p0 := by
          rw [hp0]
          show _ = st.gen.pathOf "__init__.py"
          rw [LangtraceFileGenerator.pathOf, pyNormalize_init]
          rfl
        rw [hp0']
        show (st0.fs.writeFile p0 c0).fileExists p0 = true
        exact fileExists_writeFile_self _ _ _
      · rw [← map_pathOf_eq, List.mem_map] at hp
        obtain ⟨n, hn, rfl⟩ := hp
        exact hall' n hn

theorem dirExists_writeFile (fs : FS) (p c d : String) :
    (fs.writeFile p c).dirExists d = fs.dirExists d := rfl

theorem gmf_count_nonpos (N : Int) (hN : N ≤ 0) (ci : Bool) (bf : String) (st : St)
    (h : st.fs.failWrite = []) :
    ∃ st1 : St,
      generate_multiple_files none (some N) ci bf st =
        .error (.valueError "Count must be a positive integer", st1) ∧
      st1.fs.dirExists st.gen.output_dir = true ∧
      (ci = true → st1.gen.created_files =
          st.gen.created_files ++ [joinDir st.gen.output_dir "__init__.py"] ∧
        st1.fs.fileExists (joinDir st.gen.output_dir "__init__.py") = true) ∧
      (ci = false → st1.gen.created_files = st.gen.created_files ∧
        st1.fs.files = st.fs.files) := by
  cases ci with
  | false =>
    set st0 : St := create_output_directory st with hst0
    have hred : generate_multiple_files none (some N) false bf st =
        (match generate_files_by_count N bf st0 with
         | Except.error e => Except.error e
         | Except.ok st2 => Except.ok (st2.gen.created_files, st2)) := rfl
    refine ⟨st0, ?_, ?_, by simp, ?_⟩
    · rw [hred, generate_files_by_count, if_pos hN]
    · rw [hst0]; exact create_output_directory_out_exists st
    · intro _
      exact ⟨rfl, by rw [hst0, create_output_directory_files]⟩
  | true =>
    set st0 : St := create_output_directory st with hst0
    have hfw0 : st0.fs.failWrite = [] := by
      rw [hst0, create_output_directory_failWrite]; exact h
    have hc : st0.fs.failWrite.contains (st0.gen.pathOf "__init__.py") = false := by
      rw [hfw0]; rfl
    have hgf := generate_file_ok "__init__.py" true st0 hc
    set p0 : String := st0.gen.pathOf "__init__.py" with hp0
    set c0 : String := if true && (pyNormalize "__init__.py" == "__init__.py") then
        init_content ++ LANGTRACE_SAMPLER_TEMPLATE
      else LANGTRACE_SAMPLER_TEMPLATE with hc0
    set st1 : St :=
      ⟨{ st0.gen with created_files := st0.gen.created_files ++ [p0] },
        st0.fs.writeFile p0 c0⟩ with hst1
    have hp0' : p0 = joinDir st.gen.output_dir "__init__.py" := by
      rw [hp0]
      show st.gen.pathOf "__init__.py" = _
      rw [LangtraceFileGenerator.pathOf, pyNormalize_init]
      rfl
    have hred : generate_multiple_files none (some N) true bf st =
        (match (match generate_file "__init__.py" true st0 with
                | Except.error e => Except.error e
                | Except.ok (_, s) => Except.ok s) with
         | Except.error e => Except.error e
         | Except.ok s1 =>
           match generate_files_by_count N bf s1 with
           | Except.error e => Except.error e
           | Except.ok st2 => Except.ok (st2.gen.created_files, st2)) := rfl
    refine ⟨st1, ?_, ?_, ?_, by simp⟩
    · rw [hred, hgf]
      have hstep : (match (Except.ok (p0, st1) :
            Except (PyError × St) (String × St)) with
          | Except.error e => Except.error e
          | Except.ok (_, s) => (Except.ok s : Except (PyError × St) St)) = Except.ok st1 := rfl
      rw [hstep]
      show (match generate_files_by_count N bf st1 with
        | Except.error e => Except.error e
        | Except.ok st2 => (Except.ok (st2.gen.created_files, st2) :
            Except (PyError × St) (List String × St))) = _
      rw [generate_files_by_count, if_pos hN]
    · show (st0.fs.writeFile p0 c0).dirExists st.gen.output_dir = true
      rw [dirExists_writeFile, hst0]
      exact create_output_directory_out_exists st
    · intro _
      constructor
      · show st.gen.created_files ++ [p0] = _
        rw [hp0']
      · show (st0.fs.writeFile p0 c0).fileExists (joinDir st.gen.output_dir "__init__.py") = true
        rw [← hp0']
        exact fileExists_writeFile_self _ _ _

/-! ## Distinctness of generated filenames -/

theorem pyStr_coe_succ (j : Nat) : pyStr ((j : Int) + 1) = Nat.repr (j + 1) := by
  have h1 : ((j : Int) + 1) = ((j + 1 : Nat) : Int) := by push_cast; ring
  rw [h1, pyStr, if_neg (by omega), Int.toNat_natCast]

theorem pyStr_pos (N : Int) (h : 1 ≤ N) : pyStr N = Nat.repr N.toNat := by
  rw [pyStr, if_neg (by omega)]

theorem joinDir_injective (d : String) : Function.Injective (joinDir d) := by
  intro a b hab
  have h := congrArg String.data hab
  rw [joinDir, joinDir, String.data_append, String.data_append] at h
  exact String.ext (List.append_cancel_left h)

theorem decChars_ne_nil (n : Nat) : decChars n ≠ [] := by
  rw [decChars]
  split
  · exact List.cons_ne_nil _ _
  · simp

theorem midName_getLast (bf : String) (i w : Nat) :
    ∃ d, d < 10 ∧ (bf ++ "_" ++ zfill (Nat.repr i) w).data.getLast? = some (Nat.digitChar d) := by
  obtain ⟨d, hd, hl⟩ := decChars_getLast i
  refine ⟨d, hd, ?_⟩
  rw [String.data_append, List.getLast?_append]
  have hz : (zfill (Nat.repr i) w).data.getLast? = some (Nat.digitChar d) := by
    rw [zfill_data, List.getLast?_append, data_repr_eq_decChars, hl]
    rfl
  rw [hz]
  rfl

theorem midName_not_ends_py (bf : String) (i w : Nat) :
    pyEndsWith (bf ++ "_" ++ zfill (Nat.repr i) w) ".py" = false := by
  obtain ⟨d, hd, hl⟩ := midName_getLast bf i w
  cases h : pyEndsWith (bf ++ "_" ++ zfill (Nat.repr i) w) ".py" with
  | false => rfl
  | true =>
    exfalso
    have hy := pyEndsWith_getLast _ h
    rw [hl] at hy
    exact digitChar_ne_y d hd (Option.some.injEq _ _ ▸ hy)

theorem midName_inj (bf : String) (w : Nat) (i j : Nat) (hi : 1 ≤ i) (hj : 1 ≤ j)
    (h : bf ++ "_" ++ zfill (Nat.repr i) w = bf ++ "_" ++ zfill (Nat.repr j) w) : i = j := by
  have hd := congrArg String.data h
  rw [String.data_append, String.data_append] at hd
  have hz := String.ext (List.append_cancel_left hd)
  exact zfill_repr_inj w i j hi hj hz

theorem append_py_inj (a b : String) (h : a ++ ".py" = b ++ ".py") : a = b := by
  have hd := congrArg String.data h
  rw [String.data_append, String.data_append] at hd
  exact String.ext (List.append_cancel_right hd)

theorem autoNames_norm_nodup (N : Int) (bf : String) :
    ((autoNames N bf).map pyNormalize).Nodup := by
  by_cases h1 : (N == 1) = true
  · have hN : N = 1 := by simpa using h1
    rw [autoNames, hN]
    simp
  · simp only [Bool.not_eq_true] at h1
    rw [autoNames, List.map_map]
    apply List.Nodup.map ?_ (List.nodup_range N.toNat)
    intro a b hab
    simp only [Function.comp_apply, h1, Bool.false_eq_true, if_false] at hab
    have ha := midName_not_ends_py bf (a + 1) (pyStr N).length
    have hb := midName_not_ends_py bf (b + 1) (pyStr N).length
    rw [pyStr_coe_succ, pyStr_coe_succ] at hab
    rw [pyNormalize_of_not_ends _ ha, pyNormalize_of_not_ends _ hb] at hab
    have := midName_inj bf (pyStr N).length (a + 1) (b + 1) (by omega) (by omega)
      (append_py_inj _ _ hab)
    omega

theorem norm_base_shape (s : String) :
    ∃ t, pyNormalize ("langtrace_sampler" ++ s) = "langtrace_sampler" ++ t := by
  rw [pyNormalize]
  by_cases h : pyEndsWith ("langtrace_sampler" ++ s) ".py" = true
  · exact ⟨s, by rw [if_pos h]⟩
  · simp only [Bool.not_eq_true] at h
    refine ⟨s ++ ".py", ?_⟩
    rw [h]
    simp [String.append_assoc]

theorem autoName_shape (N : Int) (x : String)
    (hx : x ∈ autoNames N "langtrace_sampler") :
    ∃ s, x = "langtrace_sampler" ++ s := by
  rw [autoNames, List.mem_map] at hx
  obtain ⟨j, _, hj⟩ := hx
  by_cases h1 : (N == 1) = true
  · rw [h1, if_pos rfl] at hj
    exact ⟨"", by rw [← hj]; rfl⟩
  · simp only [Bool.not_eq_true] at h1
    rw [h1] at hj
    simp only [Bool.false_eq_true, if_false] at hj
    exact ⟨"_" ++ zfill (pyStr ((j : Int) + 1)) (pyStr N).length,
      by rw [← hj, String.append_assoc]⟩

theorem init_ne_sampler_append (t : String) :
    ("__init__.py" : String) ≠ "langtrace_sampler" ++ t := by
  intro h
  have hd := congrArg String.data h
  rw [String.data_append] at hd
  have hh := congrArg List.head? hd
  have hh2 : some '_' = some 'l' := hh
  simp at hh2

theorem init_notin_autoNames (N : Int) :
    "__init__.py" ∉ (autoNames N "langtrace_sampler").map pyNormalize := by
  intro hmem
  rw [List.mem_map] at hmem
  obtain ⟨x, hx, hnx⟩ := hmem
  obtain ⟨s, rfl⟩ := autoName_shape N x hx
  obtain ⟨t, ht⟩ := norm_base_shape s
  rw [ht] at hnx
  exact init_ne_sampler_append t hnx.symm

theorem batchNames_nodup (N : Int) (ci : Bool) :
    (batchNames N ci "langtrace_sampler").Nodup := by
  cases ci with
  | false =>
    show ((autoNames N "langtrace_sampler").map pyNormalize).Nodup
    exact autoNames_norm_nodup N "langtrace_sampler"
  | true =>
    show ("__init__.py" :: (autoNames N "langtrace_sampler").map pyNormalize).Nodup
    rw [List.nodup_cons]
    exact ⟨init_notin_autoNames N, autoNames_norm_nodup N "langtrace_sampler"⟩

theorem batchNames_length (N : Int) (ci : Bool) (bf : String) :
    (batchNames N ci bf).length = (if ci then 1 else 0) + N.toNat := by
  rw [batchNames, List.length_append, List.length_map, autoNames, List.length_map,
    List.length_range]
  cases ci <;> rfl

/-! ## Cleanup lemmas -/

theorem cfp_cons (q : String) (rest : List String) (fs : FS) :
    cleanupFilesPhase (q :: rest) fs =
      cleanupFilesPhase rest
        (if fs.fileExists q then
          (if fs.failUnlink.contains q then fs else fs.unlink q) else fs) := rfl

theorem cfpStep_failUnlink (fs : FS) (q : String) :
    (if fs.fileExists q then
      (if fs.failUnlink.contains q then fs else fs.unlink q) else fs).failUnlink =
      fs.failUnlink := by
  split
  · split <;> rfl
  · rfl

theorem cfpStep_dirs (fs : FS) (q : String) :
    (if fs.fileExists q then
      (if fs.failUnlink.contains q then fs else fs.unlink q) else fs).dirs = fs.dirs := by
  split
  · split <;> rfl
  · rfl

theorem cfpStep_not_exists (fs : FS) (q p : String) (h : fs.fileExists p = false) :
    (if fs.fileExists q then
      (if fs.failUnlink.contains q then fs else fs.unlink q) else fs).fileExists p = false := by
  split
  · split
    · exact h
    · exact fileExists_unlink_of_not fs q p h
  · exact h

theorem cfpStep_readFile_ne (fs : FS) (q p : String) (h : p ≠ q) :
    (if fs.fileExists q then
      (if fs.failUnlink.contains q then fs else fs.unlink q) else fs).readFile? p =
      fs.readFile? p := by
  split
  · split
    · rfl
    · exact readFile?_unlink_ne fs q p h
  · rfl

theorem cleanupFilesPhase_failUnlink (paths : List String) :
    ∀ fs : FS, (cleanupFilesPhase paths fs).failUnlink = fs.failUnlink := by
  induction paths with
  | nil => intro fs; rfl
  | cons q rest ih =>
    intro fs
    rw [cfp_cons, ih, cfpStep_failUnlink]

theorem cleanupFilesPhase_dirs (paths : List String) :
    ∀ fs : FS, (cleanupFilesPhase paths fs).dirs = fs.dirs := by
  induction paths with
  | nil => intro fs; rfl
  | cons q rest ih =>
    intro fs
    rw [cfp_cons, ih, cfpStep_dirs]

theorem cleanupFilesPhase_not_exists (paths : List String) :
    ∀ (fs : FS) (p : String), fs.fileExists p = false →
      (cleanupFilesPhase paths fs).fileExists p = false := by
  induction paths with
  | nil => intro fs p h; exact h
  | cons q rest ih =>
    intro fs p h
    rw [cfp_cons]
    exact ih _ p (cfpStep_not_exists fs q p h)

theorem cleanupFilesPhase_removes (paths : List String) :
    ∀ (fs : FS) (p : String), p ∈ paths → fs.failUnlink.contains p = false →
      (cleanupFilesPhase paths fs).fileExists p = false := by
  induction paths with
  | nil => intro fs p h; exact absurd h (List.not_mem_nil p)
  | cons q rest ih =>
    intro fs p hp hfail
    rcases List.mem_cons.mp hp with rfl | hp
    · rw [cfp_cons]
      apply cleanupFilesPhase_not_exists
      by_cases hex : fs.fileExists p = true
      · rw [if_pos hex, if_neg (by rw [hfail]; exact Bool.false_ne_true)]
        exact fileExists_unlink_self fs p
      · rw [if_neg hex]
        exact Bool.not_eq_true _ ▸ hex
    · rw [cfp_cons]
      apply ih _ p hp
      rw [cfpStep_failUnlink]
      exact hfail

theorem cleanupFilesPhase_untouched (paths : List String) :
    ∀ (fs : FS) (p : String), p ∉ paths →
      (cleanupFilesPhase paths fs).readFile? p = fs.readFile? p := by
  induction paths with
  | nil => intro fs p _; rfl
  | cons q rest ih =>
    intro fs p hp
    rw [cfp_cons, ih _ p (fun hmem => hp (List.mem_cons_of_mem q hmem)),
      cfpStep_readFile_ne fs q p (fun hpq => hp (hpq ▸ List.mem_cons_self q rest))]

theorem cleanupDirsPhase_files (g : LangtraceFileGenerator) (fs : FS) :
    (cleanupDirsPhase g fs).files = fs.files := by
  rw [cleanupDirsPhase]
  split
  · dsimp only
    split <;> rfl
  · rfl

theorem cleanupDirsPhase_fileExists (g : LangtraceFileGenerator) (fs : FS) (p : String) :
    (cleanupDirsPhase g fs).fileExists p = fs.fileExists p := by
  rw [FS.fileExists, FS.fileExists, cleanupDirsPhase_files]

theorem cleanupDirsPhase_readFile (g : LangtraceFileGenerator) (fs : FS) (p : String) :
    (cleanupDirsPhase g fs).readFile? p = fs.readFile? p := by
  rw [FS.readFile?, FS.readFile?, cleanupDirsPhase_files]

theorem rmdir_dirExists_self (fs : FS) (d : String) : (fs.rmdir d).dirExists d = false := by
  have h1 : (fs.rmdir d).dirExists d = decide (d ∈ (fs.rmdir d).dirs) :=
    List.elem_eq_mem d (fs.rmdir d).dirs
  rw [h1]
  simp [FS.rmdir, List.mem_filter]

theorem rmdir_dirExists_ne (fs : FS) (d e : String) (h : e ≠ d) :
    (fs.rmdir d).dirExists e = fs.dirExists e := by
  have h1 : (fs.rmdir d).dirExists e = decide (e ∈ (fs.rmdir d).dirs) :=
    List.elem_eq_mem e (fs.rmdir d).dirs
  have h2 : fs.dirExists e = decide (e ∈ fs.dirs) := List.elem_eq_mem e fs.dirs
  rw [h1, h2]
  apply decide_eq_decide.mpr
  simp [FS.rmdir, List.mem_filter, h]

theorem output_dir_ne_base (g : LangtraceFileGenerator) (h : g.use_timestamp = true) :
    g.output_dir ≠ g.base_output_dir := by
  rw [LangtraceFileGenerator.output_dir, if_pos h]
  intro he
  have hlen := congrArg String.length he
  rw [String.length_append, String.length_append] at hlen
  have h1 : ("/" : String).length = 1 := rfl
  have h2 : ("langtrace_" ++ g.timestamp).length = 10 + g.timestamp.length := by
    rw [String.length_append]
    have h3 : ("langtrace_" : String).length = 10 := rfl
    omega
  omega

/-! ## Claim theorems -/

/-- A demonstration state: a fresh generator over an empty filesystem with no
failure oracles, matching the directory naming seen in the repository
(`langtrace_samplers/langtrace_20250703_115949`). -/
def demoSt : St :=
  ⟨LangtraceFileGenerator.init "langtrace_samplers" true "20250703_115949",
    ⟨[], [], [], []⟩⟩

/-- The state reached by a raising call, if the call raised. -/
def errState? {α : Type} (r : Except (PyError × St) α) : Option St :=
  match r with
  | .error (_, st1) => some st1
  | .ok _ => none

/-- C2: auto-generated names.  When `count = 1` the single generated name is
the bare base name, with no numeric suffix; when `count > 1` the `i`-th name
(1 ≤ i ≤ count) is the base name, an underscore, and `str(i)` zero-padded to
width `len(str(count))`. -/
theorem c2_auto_naming (N : Int) (base_filename : String) :
    (N = 1 → autoNames N base_filename = [base_filename]) ∧
    (1 < N → ∀ i : Nat, 1 ≤ i → (i : Int) ≤ N →
      (autoNames N base_filename)[i - 1]? =
        some (base_filename ++ "_" ++ zfill (pyStr (i : Int)) (pyStr N).length)) := by
  constructor
  · intro h
    subst h
    rfl
  · intro hN i hi1 hiN
    have hne : (N == 1) = false := by
      have : N ≠ 1 := by omega
      simp [this]
    rw [autoNames, List.getElem?_map, List.getElem?_range (by omega : i - 1 < N.toNat)]
    simp only [Option.map_some']
    rw [hne]
    simp only [Bool.false_eq_true, if_false]
    have hcast : ((i - 1 : Nat) : Int) + 1 = (i : Int) := by omega
    rw [hcast]

/-- C2 witness: at `count = 10`, the first and last auto-generated names are
`langtrace_sampler_01` and `langtrace_sampler_10`, and at `count = 1` the
name is the bare base name. -/
theorem c2_auto_naming_witness :
    autoNames 1 "langtrace_sampler" = ["langtrace_sampler"] ∧
    (autoNames 10 "langtrace_sampler")[1 - 1]? =
      some ("langtrace_sampler" ++ "_" ++ zfill (pyStr 1) (pyStr 10).length) ∧
    (autoNames 10 "langtrace_sampler")[10 - 1]? =
      some ("langtrace_sampler" ++ "_" ++ zfill (pyStr 10) (pyStr 10).length) :=
  ⟨(c2_auto_naming 1 "langtrace_sampler").1 rfl,
   (c2_auto_naming 10 "langtrace_sampler").2 (by omega) 1 (by omega) (by omega),
   (c2_auto_naming 10 "langtrace_sampler").2 (by omega) 10 (by omega) (by omega)⟩

/-- C4: `generate_multiple_files` raises `ValueError` (the spec's
`ConfigurationError`) when both `filenames` and `count` are supplied and when
neither is; the error carries the caller state unchanged, so it is raised
before any directory creation or file write. -/
theorem c4_policy_validation (filenames : Option (List String)) (count : Option Int)
    (create_init : Bool) (base_filename : String) (st : St)
    (h : (filenames.isSome = true ∧ count.isSome = true) ∨
      (filenames.isNone = true ∧ count.isNone = true)) :
    ∃ msg, generate_multiple_files filenames count create_init base_filename st =
      .error (.valueError msg, st) := by
  rcases filenames with _ | fl <;> rcases count with _ | c
  · exact ⟨"Either filenames or count must be provided", rfl⟩
  · simp at h
  · simp at h
  · exact ⟨"Cannot specify both filenames and count. Choose one.", rfl⟩

/-- C4 witness: both supplied, and neither supplied, on the demo state. -/
theorem c4_policy_validation_witness :
    (∃ msg, generate_multiple_files (some ["a"]) (some 2) true "langtrace_sampler" demoSt =
      .error (.valueError msg, demoSt)) ∧
    (∃ msg, generate_multiple_files none none true "langtrace_sampler" demoSt =
      .error (.valueError msg, demoSt)) :=
  ⟨c4_policy_validation (some ["a"]) (some 2) true "langtrace_sampler" demoSt
      (Or.inl ⟨rfl, rfl⟩),
   c4_policy_validation none none true "langtrace_sampler" demoSt
      (Or.inr ⟨rfl, rfl⟩)⟩

/-- C9: the `created_files` record invariant.  Every `generate_file` call
that returns appends exactly the written path to the record (append-only, in
creation order); a raising call leaves the record unchanged, so a path is
recorded iff its write succeeded; and `cleanup` is the only operation that
clears the record. -/
theorem c9_record_invariant :
    (∀ (fn : String) (ai : Bool) (st : St),
      match generate_file fn ai st with
      | .ok (p, st') => st'.gen.created_files = st.gen.created_files ++ [p]
      | .error (_, st') => st'.gen.created_files = st.gen.created_files) ∧
    (∀ st : St, (cleanup st).gen.created_files = []) := by
  constructor
  · intro fn ai st
    by_cases hc : st.fs.failWrite.contains (st.gen.pathOf fn) = true
    · have herr : generate_file fn ai st =
          .error (.ioError (st.gen.pathOf fn), st) := by
        rw [generate_file]
        simp only [LangtraceFileGenerator.pathOf] at hc
        simp only [hc, if_true]
        rfl
      rw [herr]
    · simp only [Bool.not_eq_true] at hc
      rw [generate_file_ok fn ai st hc]
  · intro st
    rfl

set_option maxRecDepth 8192

theorem init_prefix_ne :
    init_content ++ LANGTRACE_SAMPLER_TEMPLATE ≠ LANGTRACE_SAMPLER_TEMPLATE := by
  intro h
  have hlen := congrArg String.length h
  rw [String.length_append] at hlen
  have h1 : 0 < init_content.length := by decide
  omega

/-- C5: payload selection in `generate_file`.  The file just written holds
the prefixed payload (`init_content` followed by the template) exactly when
`add_init` is set and the normalized filename is the reserved `__init__.py`;
every other successful call writes exactly the plain template. -/
theorem c5_payload_selection (fn : String) (ai : Bool) (st : St) (p : String) (st' : St)
    (h : generate_file fn ai st = .ok (p, st')) :
    (st'.fs.readFile? p = some (init_content ++ LANGTRACE_SAMPLER_TEMPLATE) ↔
      ai = true ∧ pyNormalize fn = "__init__.py") ∧
    (¬ (ai = true ∧ pyNormalize fn = "__init__.py") →
      st'.fs.readFile? p = some LANGTRACE_SAMPLER_TEMPLATE) := by
  by_cases hc : st.fs.failWrite.contains (st.gen.pathOf fn) = true
  · exfalso
    rw [generate_file] at h
    simp only [LangtraceFileGenerator.pathOf] at hc
    simp only [hc, if_true] at h
    exact Except.noConfusion h
  · simp only [Bool.not_eq_true] at hc
    rw [generate_file_ok fn ai st hc] at h
    obtain ⟨hp, hst⟩ : p = st.gen.pathOf fn ∧ st' = _ := by
      have h1 := (Except.ok.injEq _ _).mp h.symm
      exact ⟨(Prod.mk.injEq _ _ _ _).mp h1 |>.1, (Prod.mk.injEq _ _ _ _).mp h1 |>.2⟩
    subst hp
    subst hst
    have hread : (st.fs.writeFile (st.gen.pathOf fn)
        (if ai && (pyNormalize fn == "__init__.py") then
          init_content ++ LANGTRACE_SAMPLER_TEMPLATE
        else LANGTRACE_SAMPLER_TEMPLATE)).readFile? (st.gen.pathOf fn) =
        some (if ai && (pyNormalize fn == "__init__.py") then
          init_content ++ LANGTRACE_SAMPLER_TEMPLATE
        else LANGTRACE_SAMPLER_TEMPLATE) :=
      readFile?_writeFile_self _ _ _
    constructor
    · rw [hread]
      by_cases hsel : (ai && (pyNormalize fn == "__init__.py")) = true
      · rw [if_pos hsel]
        simp only [Bool.and_eq_true, beq_iff_eq] at hsel
        simp [hsel]
      · rw [if_neg hsel]
        simp only [Bool.and_eq_true, beq_iff_eq] at hsel
        constructor
        · intro hcontents
          exact absurd ((Option.some.injEq _ _).mp hcontents).symm init_prefix_ne
        · intro hcond
          exact absurd hcond hsel
    · intro hcond
      rw [hread, if_neg (by simp only [Bool.and_eq_true, beq_iff_eq]; exact hcond)]

/-- C5 witness: writing the reserved init name with `add_init` yields the
prefixed payload; writing a plain name yields the bare template. -/
theorem c5_payload_selection_witness :
    (match generate_file "__init__" true demoSt with
      | .ok (p, st') => st'.fs.readFile? p =
          some (init_content ++ LANGTRACE_SAMPLER_TEMPLATE)
      | .error _ => False) ∧
    (match generate_file "sampler" true demoSt with
      | .ok (p, st') => st'.fs.readFile? p = some LANGTRACE_SAMPLER_TEMPLATE
      | .error _ => False) := by
  constructor
  · have h := c5_payload_selection "__init__" true demoSt
      (demoSt.gen.pathOf "__init__")
      ⟨{ demoSt.gen with created_files :=
          demoSt.gen.created_files ++ [demoSt.gen.pathOf "__init__"] },
        demoSt.fs.writeFile (demoSt.gen.pathOf "__init__")
          (if true && (pyNormalize "__init__" == "__init__.py") then
            init_content ++ LANGTRACE_SAMPLER_TEMPLATE
          else LANGTRACE_SAMPLER_TEMPLATE)⟩
      (generate_file_ok "__init__" true demoSt (by decide))
    exact h.1.mpr ⟨rfl, by decide⟩
  · have h := c5_payload_selection "sampler" true demoSt
      (demoSt.gen.pathOf "sampler")
      ⟨{ demoSt.gen with created_files :=
          demoSt.gen.created_files ++ [demoSt.gen.pathOf "sampler"] },
        demoSt.fs.writeFile (demoSt.gen.pathOf "sampler")
          (if true && (pyNormalize "sampler" == "__init__.py") then
            init_content ++ LANGTRACE_SAMPLER_TEMPLATE
          else LANGTRACE_SAMPLER_TEMPLATE)⟩
      (generate_file_ok "sampler" true demoSt (by decide))
    exact h.2 (by intro hcond; exact absurd hcond.2 (by decide))

/-- C6: filename normalization in `generate_file`.  A successful call on a
name without the `.py` extension creates the file at the input name with
`.py` appended exactly once (the result then carries the extension); a name
already ending in `.py` is used unchanged, so the extension is never
doubled. -/
theorem c6_extension_normalization (fn : String) (ai : Bool) (st : St) (p : String)
    (st' : St) (h : generate_file fn ai st = .ok (p, st')) :
    (pyEndsWith fn ".py" = false →
      p = joinDir st.gen.output_dir (fn ++ ".py") ∧
      pyEndsWith (fn ++ ".py") ".py" = true) ∧
    (pyEndsWith fn ".py" = true → p = joinDir st.gen.output_dir fn) := by
  by_cases hc : st.fs.failWrite.contains (st.gen.pathOf fn) = true
  · exfalso
    rw [generate_file] at h
    simp only [LangtraceFileGenerator.pathOf] at hc
    simp only [hc, if_true] at h
    exact Except.noConfusion h
  · simp only [Bool.not_eq_true] at hc
    rw [generate_file_ok fn ai st hc] at h
    have hp : p = st.gen.pathOf fn := by
      have h1 := (Except.ok.injEq _ _).mp h.symm
      exact (Prod.mk.injEq _ _ _ _).mp h1 |>.1
    subst hp
    constructor
    · intro hends
      refine ⟨?_, pyEndsWith_append_py fn⟩
      rw [LangtraceFileGenerator.pathOf, pyNormalize_of_not_ends fn hends]
      rfl
    · intro hends
      rw [LangtraceFileGenerator.pathOf, pyNormalize_of_ends fn hends]
      rfl

/-- C6 witness: a name without the extension gets it appended once; a name
with the extension is unchanged. -/
theorem c6_extension_normalization_witness :
    (demoSt.gen.pathOf "sampler" = joinDir demoSt.gen.output_dir ("sampler" ++ ".py") ∧
      pyEndsWith ("sampler" ++ ".py") ".py" = true) ∧
    demoSt.gen.pathOf "x.py" = joinDir demoSt.gen.output_dir "x.py" :=
  ⟨(c6_extension_normalization "sampler" false demoSt (demoSt.gen.pathOf "sampler") _
      (generate_file_ok "sampler" false demoSt (by decide))).1 (by decide),
   (c6_extension_normalization "x.py" false demoSt (demoSt.gen.pathOf "x.py") _
      (generate_file_ok "x.py" false demoSt (by decide))).2 (by decide)⟩

/-- C1: for every count `N ≥ 1`, a successful count-mode
`generate_multiple_files` on a fresh generator (with the default base name
`langtrace_sampler`) returns exactly `N` data-file paths plus one init-file
path when `create_init` is set; the returned paths are pairwise distinct and
every returned path exists on the filesystem. -/
theorem c1_batch_count (N : Int) (hN : 1 ≤ N) (create_init : Bool)
    (base : String) (use_ts : Bool) (ts : String) (fs0 : FS)
    (hfw : fs0.failWrite = []) :
    ∃ (files : List String) (st' : St),
      generate_multiple_files none (some N) create_init "langtrace_sampler"
        ⟨LangtraceFileGenerator.init base use_ts ts, fs0⟩ = .ok (files, st') ∧
      files.length = N.toNat + (if create_init then 1 else 0) ∧
      files.Nodup ∧
      (∀ p ∈ files, st'.fs.fileExists p = true) := by
  obtain ⟨fs', hrun, hfw', hall⟩ :=
    gmf_count_ok N hN create_init "langtrace_sampler"
      ⟨LangtraceFileGenerator.init base use_ts ts, fs0⟩ hfw
  refine ⟨_, _, hrun, ?_, ?_, ?_⟩
  · show (([] : List String) ++ _).length = _
    rw [List.nil_append, List.length_map, batchNames_length N create_init]
    cases create_init <;> simp [Nat.add_comm]
  · show (([] : List String) ++ _).Nodup
    rw [List.nil_append]
    exact List.Nodup.map (joinDir_injective _) (batchNames_nodup N create_init)
  · intro p hp
    exact hall p hp

/-- C1 witness: `N = 3` with an init file on the demo state yields four
distinct existing files. -/
theorem c1_batch_count_witness :
    ∃ (files : List String) (st' : St),
      generate_multiple_files none (some 3) true "langtrace_sampler"
        ⟨LangtraceFileGenerator.init "langtrace_samplers" true "20250703_115949",
          ⟨[], [], [], []⟩⟩ = .ok (files, st') ∧
      files.length = (3 : Int).toNat + (if true then 1 else 0) ∧
      files.Nodup ∧
      (∀ p ∈ files, st'.fs.fileExists p = true) :=
  c1_batch_count 3 (by omega) true "langtrace_samplers" true "20250703_115949"
    ⟨[], [], [], []⟩ rfl

/-- C10 (implicit): `generate_multiple_files` returns the cumulative
`created_files` record, not just the current batch: after a successful batch
of `M` files a second successful batch of `NN` files on the same instance
returns a list that extends the first returned list and has length
`M + NN` plus the requested init files. -/
theorem c10_cumulative_record (M NN : Int) (hM : 1 ≤ M) (hNN : 1 ≤ NN)
    (ci1 ci2 : Bool) (bf1 bf2 : String) (st : St) (h0 : st.gen.created_files = [])
    (hfw : st.fs.failWrite = []) :
    ∃ (r1 r2 : List String) (st1 st2 : St),
      generate_multiple_files none (some M) ci1 bf1 st = .ok (r1, st1) ∧
      generate_multiple_files none (some NN) ci2 bf2 st1 = .ok (r2, st2) ∧
      r1 = st1.gen.created_files ∧
      r2 = st2.gen.created_files ∧
      r1.length = M.toNat + (if ci1 then 1 else 0) ∧
      (∃ l, r2 = r1 ++ l ∧ l.length = NN.toNat + (if ci2 then 1 else 0)) := by
  obtain ⟨fs1, hrun1, hfw1, _⟩ := gmf_count_ok M hM ci1 bf1 st hfw
  set r1 : List String :=
    st.gen.created_files ++ (batchNames M ci1 bf1).map (joinDir st.gen.output_dir)
    with hr1
  set st1 : St := ⟨{ st.gen with created_files := r1 }, fs1⟩ with hst1
  obtain ⟨fs2, hrun2, hfw2, _⟩ := gmf_count_ok NN hNN ci2 bf2 st1 hfw1
  refine ⟨r1, _, st1, _, hrun1, hrun2, rfl, rfl, ?_, ?_⟩
  · rw [hr1, h0, List.nil_append, List.length_map, batchNames_length M ci1 bf1]
    cases ci1 <;> simp [Nat.add_comm]
  · refine ⟨(batchNames NN ci2 bf2).map (joinDir st1.gen.output_dir), rfl, ?_⟩
    rw [List.length_map, batchNames_length NN ci2 bf2]
    cases ci2 <;> simp [Nat.add_comm]

/-- C10 witness: batches of 2 then 3 files (no init) on the demo state. -/
theorem c10_cumulative_record_witness :
    ∃ (r1 r2 : List String) (st1 st2 : St),
      generate_multiple_files none (some 2) false "a" demoSt = .ok (r1, st1) ∧
      generate_multiple_files none (some 3) false "b" st1 = .ok (r2, st2) ∧
      r1 = st1.gen.created_files ∧
      r2 = st2.gen.created_files ∧
      r1.length = (2 : Int).toNat + (if false then 1 else 0) ∧
      (∃ l, r2 = r1 ++ l ∧ l.length = (3 : Int).toNat + (if false then 1 else 0)) :=
  c10_cumulative_record 2 3 (by omega) (by omega) false false "a" "b" demoSt rfl rfl

/-- C3 counterexample: with `count = 0` and `create_init` on the demo state
the call does raise, but the claim that no directory is created and no file
is written before the error surfaces is false: the error state carries a
created directory tree, a written init file, and a recorded path. -/
theorem c3_counterexample :
    ((errState? (generate_multiple_files none (some 0) true "langtrace_sampler"
        demoSt)).all
      (fun st1 => st1.fs.dirs.isEmpty && st1.fs.files.isEmpty &&
        st1.gen.created_files.isEmpty)) = false := by
  rfl

/-- C3 (amended): for every `count ≤ 0`, `generate_multiple_files` raises
`ValueError` (the spec's `ConfigurationError`); however the validation
happens inside `_generate_files_by_count`, after `create_output_directory`
and after the optional init-file write, so at the moment the error surfaces
the output directory exists and, when `create_init` is set, the init file
has been written and recorded (with `create_init` unset, no file is
written). -/
theorem c3_nonpositive_count (N : Int) (hN : N ≤ 0) (ci : Bool) (bf : String)
    (st : St) (h : st.fs.failWrite = []) :
    ∃ st1 : St,
      generate_multiple_files none (some N) ci bf st =
        .error (.valueError "Count must be a positive integer", st1) ∧
      st1.fs.dirExists st.gen.output_dir = true ∧
      (ci = true → st1.gen.created_files =
          st.gen.created_files ++ [joinDir st.gen.output_dir "__init__.py"] ∧
        st1.fs.fileExists (joinDir st.gen.output_dir "__init__.py") = true) ∧
      (ci = false → st1.gen.created_files = st.gen.created_files ∧
        st1.fs.files = st.fs.files) :=
  gmf_count_nonpos N hN ci bf st h

/-- C3 witness: `count = 0` with an init file on the demo state. -/
theorem c3_nonpositive_count_witness :
    ∃ st1 : St,
      generate_multiple_files none (some 0) true "langtrace_sampler" demoSt =
        .error (.valueError "Count must be a positive integer", st1) ∧
      st1.fs.dirExists demoSt.gen.output_dir = true ∧
      (true = true → st1.gen.created_files =
          demoSt.gen.created_files ++ [joinDir demoSt.gen.output_dir "__init__.py"] ∧
        st1.fs.fileExists (joinDir demoSt.gen.output_dir "__init__.py") = true) ∧
      (true = false → st1.gen.created_files = demoSt.gen.created_files ∧
        st1.fs.files = demoSt.fs.files) :=
  c3_nonpositive_count 0 (by omega) true "langtrace_sampler" demoSt rfl

/-- C7: `cleanup` is best-effort and clears the record.  It is a total
function (no exception escapes, so missing files and per-file `OSError`s do
not abort it); afterwards the record is empty regardless of failures, every
recorded path whose deletion does not fail is gone (even when other paths in
the record fail), and unrecorded paths are untouched. -/
theorem c7_cleanup_best_effort (st : St) :
    (cleanup st).gen.created_files = [] ∧
    (∀ p ∈ st.gen.created_files, st.fs.failUnlink.contains p = false →
      (cleanup st).fs.fileExists p = false) ∧
    (∀ q, q ∉ st.gen.created_files →
      (cleanup st).fs.readFile? q = st.fs.readFile? q) := by
  refine ⟨rfl, ?_, ?_⟩
  · intro p hp hfail
    show (cleanupDirsPhase st.gen
      (cleanupFilesPhase st.gen.created_files st.fs)).fileExists p = false
    rw [cleanupDirsPhase_fileExists]
    exact cleanupFilesPhase_removes st.gen.created_files st.fs p hp hfail
  · intro q hq
    show (cleanupDirsPhase st.gen
      (cleanupFilesPhase st.gen.created_files st.fs)).readFile? q = st.fs.readFile? q
    rw [cleanupDirsPhase_readFile]
    exact cleanupFilesPhase_untouched st.gen.created_files st.fs q hq

/-- A state for exercising `cleanup`: two recorded files of which the first
fails to delete, plus one unrecorded bystander file. -/
def c7demoSt : St :=
  ⟨⟨"d", false, "", ["d/a.py", "d/b.py"]⟩,
    ⟨["d"], [("d/a.py", "x"), ("d/b.py", "y"), ("d/z.py", "z")], [], ["d/a.py"]⟩⟩

/-- C7 witness: on `c7demoSt` the record is cleared, the non-failing
recorded file is deleted even though an earlier recorded file fails, and
the unrecorded file is untouched. -/
theorem c7_cleanup_best_effort_witness :
    (cleanup c7demoSt).gen.created_files = [] ∧
    (cleanup c7demoSt).fs.fileExists "d/b.py" = false ∧
    (cleanup c7demoSt).fs.readFile? "d/z.py" = c7demoSt.fs.readFile? "d/z.py" :=
  ⟨(c7_cleanup_best_effort c7demoSt).1,
   (c7_cleanup_best_effort c7demoSt).2.1 "d/b.py" (by decide) (by decide),
   (c7_cleanup_best_effort c7demoSt).2.2 "d/z.py" (by decide)⟩

theorem cleanupDirsPhase_spec (g : LangtraceFileGenerator) (fs : FS) :
    (fs.dirExists g.output_dir = true →
      ((cleanupDirsPhase g fs).dirExists g.output_dir = false ↔
        fs.dirHasEntries g.output_dir = false)) ∧
    (fs.dirHasEntries g.output_dir = true → cleanupDirsPhase g fs = fs) ∧
    (g.use_timestamp = false → cleanupDirsPhase g fs = removeOutputDirOnly g fs) ∧
    (g.use_timestamp = true →
      fs.dirExists g.base_output_dir = true →
      (cleanupDirsPhase g fs).dirExists g.base_output_dir = false →
      (removeOutputDirOnly g fs).dirHasEntries g.base_output_dir = false) := by
  by_cases hcond : (fs.dirExists g.output_dir && !(fs.dirHasEntries g.output_dir)) = true
  · obtain ⟨hex, hne⟩ : fs.dirExists g.output_dir = true ∧
        fs.dirHasEntries g.output_dir = false := by
      simpa only [Bool.and_eq_true, Bool.not_eq_true'] using hcond
    have hphase : cleanupDirsPhase g fs =
        (if (g.use_timestamp && (fs.rmdir g.output_dir).dirExists g.base_output_dir
            && !((fs.rmdir g.output_dir).dirHasEntries g.base_output_dir)) = true then
          (fs.rmdir g.output_dir).rmdir g.base_output_dir
        else fs.rmdir g.output_dir) := by
      rw [cleanupDirsPhase, if_pos hcond]
    have hout : removeOutputDirOnly g fs = fs.rmdir g.output_dir := by
      rw [removeOutputDirOnly, if_pos hcond]
    refine ⟨?_, ?_, ?_, ?_⟩
    · intro _
      constructor
      · intro _
        exact hne
      · intro _
        rw [hphase]
        by_cases hc2 : (g.use_timestamp
            && (fs.rmdir g.output_dir).dirExists g.base_output_dir
            && !((fs.rmdir g.output_dir).dirHasEntries g.base_output_dir)) = true
        · rw [if_pos hc2]
          obtain ⟨⟨hts, _⟩, _⟩ : (g.use_timestamp = true ∧ _) ∧ _ := by
            simpa only [Bool.and_eq_true, Bool.not_eq_true'] using hc2
          rw [rmdir_dirExists_ne _ _ _ (output_dir_ne_base g hts)]
          exact rmdir_dirExists_self fs g.output_dir
        · rw [if_neg hc2]
          exact rmdir_dirExists_self fs g.output_dir
    · intro hhas
      rw [hhas] at hne
      exact absurd hne (by simp)
    · intro hts
      rw [hphase, hout, if_neg ?_]
      intro habs
      obtain ⟨⟨hts2, _⟩, _⟩ : (g.use_timestamp = true ∧ _) ∧ _ := by
        simpa only [Bool.and_eq_true, Bool.not_eq_true'] using habs
      rw [hts] at hts2
      exact Bool.noConfusion hts2
    · intro hts hbex hbfinal
      rw [hout]
      rw [hphase] at hbfinal
      by_cases hc2 : (g.use_timestamp
          && (fs.rmdir g.output_dir).dirExists g.base_output_dir
          && !((fs.rmdir g.output_dir).dirHasEntries g.base_output_dir)) = true
      · obtain ⟨⟨_, _⟩, hempty⟩ : (_ ∧ _) ∧
            (fs.rmdir g.output_dir).dirHasEntries g.base_output_dir = false := by
          simpa only [Bool.and_eq_true, Bool.not_eq_true'] using hc2
        exact hempty
      · rw [if_neg hc2] at hbfinal
        rw [rmdir_dirExists_ne fs g.output_dir g.base_output_dir
          (Ne.symm (output_dir_ne_base g hts))] at hbfinal
        rw [hbex] at hbfinal
        exact absurd hbfinal (by simp)
  · have hphase : cleanupDirsPhase g fs = fs := by
      rw [cleanupDirsPhase, if_neg hcond]
    have hout : removeOutputDirOnly g fs = fs := by
      rw [removeOutputDirOnly, if_neg hcond]
    refine ⟨?_, fun _ => hphase, fun _ => by rw [hphase, hout], ?_⟩
    · intro hex
      rw [hphase]
      constructor
      · intro hfalse
        rw [hex] at hfalse
        exact absurd hfalse (by simp)
      · intro hempty
        exfalso
        apply hcond
        rw [hex, hempty]
        rfl
    · intro _ hbex hbfinal
      rw [hphase] at hbfinal
      rw [hbex] at hbfinal
      exact absurd hbfinal (by simp)

/-- C8: `cleanup` directory removal is bottom-up and conditional.  With
`fs1` the filesystem after the file-deletion loop: the output directory (if
it still exists) ends up removed iff it is empty at that point; when it is
non-empty the whole removal block does nothing; in non-timestamp mode (base
directory equal to output directory) no separate base-directory removal step
ever runs — the final state is exactly the output-directory-only removal;
and in timestamp mode the base directory is a distinct ancestor which is
removed only if it is empty once the output directory is gone. -/
theorem c8_cleanup_dir_removal (st : St) :
    ((cleanupFilesPhase st.gen.created_files st.fs).dirExists st.gen.output_dir = true →
      ((cleanup st).fs.dirExists st.gen.output_dir = false ↔
        (cleanupFilesPhase st.gen.created_files st.fs).dirHasEntries
          st.gen.output_dir = false)) ∧
    ((cleanupFilesPhase st.gen.created_files st.fs).dirHasEntries
        st.gen.output_dir = true →
      (cleanup st).fs = cleanupFilesPhase st.gen.created_files st.fs) ∧
    (st.gen.use_timestamp = false →
      (cleanup st).fs = removeOutputDirOnly st.gen
        (cleanupFilesPhase st.gen.created_files st.fs)) ∧
    (st.gen.use_timestamp = true →
      st.gen.output_dir ≠ st.gen.base_output_dir ∧
      ((cleanupFilesPhase st.gen.created_files st.fs).dirExists
          st.gen.base_output_dir = true →
        (cleanup st).fs.dirExists st.gen.base_output_dir = false →
        (removeOutputDirOnly st.gen
          (cleanupFilesPhase st.gen.created_files st.fs)).dirHasEntries
            st.gen.base_output_dir = false)) := by
  obtain ⟨h1, h2, h3, h4⟩ :=
    cleanupDirsPhase_spec st.gen (cleanupFilesPhase st.gen.created_files st.fs)
  exact ⟨h1, h2, h3, fun hts => ⟨output_dir_ne_base st.gen hts, h4 hts⟩⟩

/-- A state for exercising the directory removal of `cleanup`: timestamp
mode, one recorded file inside the output directory, both directories
present. -/
def c8demoSt : St :=
  ⟨⟨"b", true, "T", ["b/langtrace_T/a.py"]⟩,
    ⟨["b", "b/langtrace_T"], [("b/langtrace_T/a.py", "x")], [], []⟩⟩

/-- C8 witness: on `c8demoSt` the output dir still exists after file
removal, the removal iff holds there, the base dir is a distinct ancestor,
and its removal implies it was empty after the output dir was removed. -/
theorem c8_cleanup_dir_removal_witness :
    ((cleanup c8demoSt).fs.dirExists c8demoSt.gen.output_dir = false ↔
      (cleanupFilesPhase c8demoSt.gen.created_files c8demoSt.fs).dirHasEntries
        c8demoSt.gen.output_dir = false) ∧
    c8demoSt.gen.output_dir ≠ c8demoSt.gen.base_output_dir ∧
    (removeOutputDirOnly c8demoSt.gen
      (cleanupFilesPhase c8demoSt.gen.created_files c8demoSt.fs)).dirHasEntries
        c8demoSt.gen.base_output_dir = false :=
  ⟨(c8_cleanup_dir_removal c8demoSt).1 (by decide),
   ((c8_cleanup_dir_removal c8demoSt).2.2.2 rfl).1,
   ((c8_cleanup_dir_removal c8demoSt).2.2.2 rfl).2 (by decide) (by decide)⟩
